import Mathlib

/-!
Shallow embedding of the interactive mask-editing engine of
`src/src/components/MagicBrushEditor.tsx`, together with proofs of the
specified properties of its stroke history, mask compositor, coordinate
mapping and zoom controls.

Coordinates and configuration values are embedded as rationals (exact
arithmetic for the event handlers); the rebuilt alpha mask is a real-valued
alpha buffer in the 0..255 scale, since the radial-gradient stamp involves a
Euclidean distance.
-/

namespace MagicBrush

/-- Brush mode, `type BrushMode = 'erase' | 'restore'` (MagicBrushEditor.tsx
line 11). -/
inductive BrushMode where
  | erase
  | restore
deriving DecidableEq

/-- A point in canvas space, `interface Point { x: number; y: number }`
(line 12). -/
structure Point where
  x : ℚ
  y : ℚ
deriving DecidableEq

/-- A committed stroke, `interface Stroke { points: Point[]; mode: BrushMode;
size: number }` (line 13). -/
structure Stroke where
  points : List Point
  mode : BrushMode
  size : ℚ
deriving DecidableEq

/-- Stand-in for a decoded `HTMLImageElement` used as background image. -/
structure ImageEl where
  width : ℚ
  height : ℚ
deriving DecidableEq

/-- The mutable React state of the editor component that the embedded event
handlers read and write (lines 54-86). -/
structure EditorState where
  loading : Bool
  error : Option String
  isDrawing : Bool
  currentStroke : List Point
  strokes : List Stroke
  redoStack : List Stroke
  brushMode : BrushMode
  brushSize : ℚ
  backgroundColor : String
  backgroundImage : Option ImageEl
  isBrushPreviewVisible : Bool
  brushPosition : Point
deriving DecidableEq

/-- Mouse-down handler `startDrawing` (lines 279-284):
`if (e.button !== 0 || loading || error) return;` then sets `isDrawing` and
resets the current point buffer to the single position of the event. -/
def startDrawing (button : Nat) (p : Point) (s : EditorState) : EditorState :=
  if button ≠ 0 ∨ s.loading = true ∨ s.error ≠ none then s
  else { s with isDrawing := true, currentStroke := [p] }

/-- Mouse-move handler `draw` (lines 286-291): rejected unless a gesture is
in progress and the session is neither loading nor in error; otherwise the
mapped point is pushed onto the current point buffer. -/
def draw (p : Point) (s : EditorState) : EditorState :=
  if s.isDrawing = false ∨ s.loading = true ∨ s.error ≠ none then s
  else { s with currentStroke := s.currentStroke ++ [p] }

/-- Mouse-up/leave handler `stopDrawing` (lines 293-302): if a gesture is in
progress it ends; a non-empty point buffer is committed as a new stroke with
the current brush mode and size, and the redo stack is cleared. -/
def stopDrawing (s : EditorState) : EditorState :=
  if s.isDrawing = true then
    if s.currentStroke.length > 0 then
      { s with isDrawing := false,
               strokes := s.strokes ++
                 [⟨s.currentStroke, s.brushMode, s.brushSize⟩],
               redoStack := [],
               currentStroke := [] }
    else
      { s with isDrawing := false, currentStroke := [] }
  else s

/-- Touch-start handler `handleTouchStart` (lines 352-358): rejected while
loading or in error; otherwise starts a gesture at the mapped point and shows
the brush preview. -/
def handleTouchStart (p : Point) (s : EditorState) : EditorState :=
  if s.loading = true ∨ s.error ≠ none then s
  else { s with isDrawing := true, currentStroke := [p],
                isBrushPreviewVisible := true }

/-- Touch-move handler `handleTouchMove` (lines 359-373): rejected unless a
gesture is in progress and the session is neither loading nor in error;
appends the mapped canvas point `p` and records the raw screen position `q`
for the live brush preview. -/
def handleTouchMove (p q : Point) (s : EditorState) : EditorState :=
  if s.isDrawing = false ∨ s.loading = true ∨ s.error ≠ none then s
  else { s with currentStroke := s.currentStroke ++ [p], brushPosition := q }

/-- Undo handler `handleUndo` (lines 304-309): no-op on an empty committed
sequence; otherwise the last committed stroke moves to the front of the redo
stack. -/
def handleUndo (s : EditorState) : EditorState :=
  if h : s.strokes = [] then s
  else { s with strokes := s.strokes.dropLast,
                redoStack := s.strokes.getLast h :: s.redoStack }

/-- Redo handler `handleRedo` (lines 311-316): no-op on an empty redo stack;
otherwise the front of the redo stack moves back onto the end of the
committed sequence. -/
def handleRedo (s : EditorState) : EditorState :=
  match s.redoStack with
  | [] => s
  | strokeToRedo :: rest =>
      { s with strokes := s.strokes ++ [strokeToRedo], redoStack := rest }

/-- Whether the Redo button is enabled, `disabled={redoStack.length === 0}`
(line 548). -/
def canRedo (s : EditorState) : Bool :=
  s.redoStack.length != 0

/-- Whether the Undo button is enabled, `disabled={strokes.length === 0}`
(line 547). -/
def canUndo (s : EditorState) : Bool :=
  s.strokes.length != 0

/-- Failure branch of `handleBgImageUpload` (lines 326-336): the rejected
image load only records the error message; no other field is written. -/
def bgUploadFailure (s : EditorState) : EditorState :=
  { s with error := some "Failed to load background image" }

/-- Success branch of `handleBgImageUpload` (lines 329-331): the decoded
image replaces the background image and the background color is cleared. -/
def bgUploadSuccess (img : ImageEl) (s : EditorState) : EditorState :=
  { s with backgroundImage := some img, backgroundColor := "" }

/-- A raw touch point of a touch event (`clientX`/`clientY`). -/
structure Touch where
  clientX : ℚ
  clientY : ℚ
deriving DecidableEq

/-- Mouse branch of `getPos` (lines 262-267): maps a screen position to
canvas space by subtracting the canvas bounding-rect origin and dividing by
the zoom factor. -/
def getPosMouse (clientX clientY rectLeft rectTop zoom : ℚ) : ℚ × ℚ :=
  ((clientX - rectLeft) / zoom, (clientY - rectTop) / zoom)

/-- Selection `e.touches[0] || e.changedTouches[0]` of the first active touch
point (line 257). -/
def firstTouch (touches changedTouches : List Touch) : Option Touch :=
  match touches with
  | t :: _ => some t
  | [] => changedTouches.head?

/-- Touch branch of `getPos` (lines 256-261): the same mapping applied to the
first active touch point, when one exists. -/
def getPosTouch (touches changedTouches : List Touch)
    (rectLeft rectTop zoom : ℚ) : Option (ℚ × ℚ) :=
  (firstTouch touches changedTouches).map fun t =>
    ((t.clientX - rectLeft) / zoom, (t.clientY - rectTop) / zoom)

/-- A zoom control of the toolbar (lines 550-553). -/
inductive ZoomOp where
  | zoomOut
  | zoomIn
  | reset
deriving DecidableEq

/-- Effect of one zoom control on the zoom factor:
`setZoom(z => Math.max(z / 1.2, 0.2))`, `setZoom(z => Math.min(z * 1.2, 5))`,
`setZoom(1)` (lines 550-553). -/
def applyZoom : ZoomOp → ℚ → ℚ
  | ZoomOp.zoomOut, z => max (z / 1.2) 0.2
  | ZoomOp.zoomIn, z => min (z * 1.2) 5
  | ZoomOp.reset, _ => 1

/-- Zoom factor reached from the initial zoom 1 (line 57) by a sequence of
zoom controls. -/
def runZoom (ops : List ZoomOp) : ℚ :=
  ops.foldl (fun z op => applyZoom op z) 1

/-- An alpha buffer: the alpha value (0..255 scale) of the rebuilt mask at
each canvas-space point. -/
def AlphaBuffer : Type := Point → ℝ

/-- Euclidean distance between two canvas points. -/
noncomputable def euclDist (c p : Point) : ℝ :=
  Real.sqrt (((c.x - p.x) ^ 2 + (c.y - p.y) ^ 2 : ℚ))

/-- Alpha contribution of one radial-gradient dab of radius `r` centred at
`c`, evaluated at `p` (lines 136-144): the gradient runs linearly from alpha
1 at the centre to alpha 0 at the radius boundary, and contributes nothing
beyond it, i.e. `a(d) = 1 - clamp(d / r, 0, 1)`. -/
noncomputable def stampAlpha (c : Point) (r : ℚ) (p : Point) : ℝ :=
  1 - min (max (euclDist c p / (r : ℝ)) 0) 1

/-- Compositing of one dab into the mask buffer per the stroke mode
(line 134): `destination-out` for erase (`new = old * (1 - a)`), standard
`source-over` for restore (`new = 255 * a + old * (1 - a)` on the 0..255
scale). -/
noncomputable def applyPoint (mode : BrushMode) (r : ℚ) (c : Point)
    (buf : AlphaBuffer) : AlphaBuffer :=
  fun p =>
    match mode with
    | BrushMode.erase => buf p * (1 - stampAlpha c r p)
    | BrushMode.restore => 255 * stampAlpha c r p + buf p * (1 - stampAlpha c r p)

/-- Application of one whole stroke (lines 133-146): each of its points is
stamped in order with radius `stroke.size / 2`. -/
noncomputable def applyStroke (buf : AlphaBuffer) (stroke : Stroke) : AlphaBuffer :=
  stroke.points.foldl (fun b c => applyPoint stroke.mode (stroke.size / 2) c b) buf

/-- The mask rebuild of `redrawAll` (lines 126-147): starting from the
baseline mask buffer, every committed stroke is applied in commit order. -/
noncomputable def buildMask (baseline : AlphaBuffer) (strokes : List Stroke) :
    AlphaBuffer :=
  strokes.foldl applyStroke baseline

/-- The mask rebuild as `redrawAll` reads it off the component state: only
the committed stroke list enters the computation. -/
noncomputable def redrawMaskOf (baseline : AlphaBuffer) (s : EditorState) :
    AlphaBuffer :=
  buildMask baseline s.strokes

/-- The component state right after a successful load, with the initial
values of the `useState` hooks (lines 54-77) and loading finished. -/
def readyState : EditorState :=
  { loading := false, error := none, isDrawing := false, currentStroke := [],
    strokes := [], redoStack := [], brushMode := BrushMode.restore,
    brushSize := 40, backgroundColor := "#ffffff", backgroundImage := none,
    isBrushPreviewVisible := false, brushPosition := ⟨0, 0⟩ }

theorem euclDist_self (c : Point) : euclDist c c = 0 := by
  simp [euclDist]

theorem stampAlpha_self (c : Point) (r : ℚ) : stampAlpha c r c = 1 := by
  simp [stampAlpha, euclDist_self]

theorem stampAlpha_far (c p : Point) (r : ℚ) (hr : 0 < r)
    (h : (r : ℝ) ≤ euclDist c p) : stampAlpha c r p = 0 := by
  unfold stampAlpha
  have hr' : (0 : ℝ) < (r : ℝ) := by exact_mod_cast hr
  have h1 : (1 : ℝ) ≤ euclDist c p / (r : ℝ) := (one_le_div hr').mpr h
  rw [max_eq_left (le_trans zero_le_one h1), min_eq_right h1, sub_self]

theorem stampAlpha_at (c p : Point) (r : ℚ) (hr : 0 < r) (d : ℝ)
    (hd : euclDist c p = d) (h0 : 0 ≤ d) (h1 : d ≤ (r : ℝ)) :
    stampAlpha c r p = 1 - d / (r : ℝ) := by
  unfold stampAlpha
  have hr' : (0 : ℝ) < (r : ℝ) := by exact_mod_cast hr
  rw [hd, max_eq_left (div_nonneg h0 hr'.le),
    min_eq_left ((div_le_one hr').mpr h1)]

theorem euclDist_ten : euclDist ⟨0, 0⟩ ⟨10, 0⟩ = 10 := by
  unfold euclDist
  norm_num
  rw [show (100 : ℝ) = 10 ^ 2 by norm_num, Real.sqrt_sq (by norm_num)]

theorem buildMask_single_point (b : AlphaBuffer) (mode : BrushMode) (sz : ℚ)
    (c p : Point) :
    buildMask b [⟨[c], mode, sz⟩] p = applyPoint mode (sz / 2) c b p := rfl

/-- C1: the rebuilt alpha mask is a pure function of the baseline mask and
the committed stroke sequence — two component states with the same committed
strokes rebuild the same mask (no other state field enters), and re-running
the rebuild on the same inputs yields an identical output buffer. -/
theorem replay_determinism (baseline : AlphaBuffer) (s t : EditorState)
    (h : s.strokes = t.strokes) :
    redrawMaskOf baseline s = redrawMaskOf baseline t ∧
    ∀ strokes : List Stroke,
      buildMask baseline strokes = buildMask baseline strokes := by
  refine ⟨?_, fun _ => rfl⟩
  unfold redrawMaskOf
  rw [h]

/-- Witness for C1 at two concrete states differing in brush settings. -/
theorem replay_determinism_witness :
    redrawMaskOf (fun _ => 255) { readyState with brushSize := 10 } =
      redrawMaskOf (fun _ => 255)
        { readyState with brushMode := BrushMode.erase } :=
  (replay_determinism (fun _ => 255) _ _ rfl).1

/-- C6: the pointer-to-canvas mapping subtracts the canvas origin and divides
by the zoom; the touch branch applied to the first active touch point agrees
with the mouse branch; screen point (100,100) at origin (0,0) and zoom 2 maps
to (50,50); and doubling the zoom halves the mapped coordinates. -/
theorem coordinate_mapping (clientX clientY rectLeft rectTop zoom : ℚ)
    (t : Touch) (ts cs : List Touch) (_hz : 0 < zoom) :
    getPosMouse clientX clientY rectLeft rectTop zoom =
      ((clientX - rectLeft) / zoom, (clientY - rectTop) / zoom) ∧
    getPosTouch (t :: ts) cs rectLeft rectTop zoom =
      some (getPosMouse t.clientX t.clientY rectLeft rectTop zoom) ∧
    getPosMouse 100 100 0 0 2 = (50, 50) ∧
    getPosMouse clientX clientY rectLeft rectTop (2 * zoom) =
      ((getPosMouse clientX clientY rectLeft rectTop zoom).1 / 2,
       (getPosMouse clientX clientY rectLeft rectTop zoom).2 / 2) := by
  refine ⟨rfl, rfl, by norm_num [getPosMouse], ?_⟩
  unfold getPosMouse
  simp only [Prod.mk.injEq]
  constructor <;> ring

/-- Witness for C6 at the concrete Scenario E inputs. -/
theorem coordinate_mapping_witness :
    getPosMouse 100 100 0 0 2 = ((100 - 0) / 2, (100 - 0) / 2) ∧
    getPosTouch [⟨100, 100⟩] [] 0 0 2 =
      some (getPosMouse 100 100 0 0 2) ∧
    getPosMouse 100 100 0 0 2 = (50, 50) ∧
    getPosMouse 100 100 0 0 (2 * 2) =
      ((getPosMouse 100 100 0 0 2).1 / 2,
       (getPosMouse 100 100 0 0 2).2 / 2) :=
  coordinate_mapping 100 100 0 0 2 ⟨100, 100⟩ [] [] (by norm_num)

/-- C9: while the session is loading or an error has been recorded, every
pointer-down and pointer-move handler (mouse and touch) leaves the state
unchanged: no gesture starts, no point accumulates, no stroke is committed. -/
theorem input_rejection (s : EditorState)
    (h : s.loading = true ∨ s.error ≠ none) (button : Nat) (p q : Point) :
    startDrawing button p s = s ∧ draw p s = s ∧
    handleTouchStart p s = s ∧ handleTouchMove p q s = s := by
  refine ⟨?_, ?_, ?_, ?_⟩
  · rw [startDrawing, if_pos (Or.inr h)]
  · rw [draw, if_pos (Or.inr h)]
  · rw [handleTouchStart, if_pos h]
  · rw [handleTouchMove, if_pos (Or.inr h)]

/-- Witness for C9 at a concrete loading state. -/
theorem input_rejection_witness :
    startDrawing 0 ⟨1, 1⟩ { readyState with loading := true } =
      { readyState with loading := true } ∧
    draw ⟨1, 1⟩ { readyState with loading := true } =
      { readyState with loading := true } ∧
    handleTouchStart ⟨1, 1⟩ { readyState with loading := true } =
      { readyState with loading := true } ∧
    handleTouchMove ⟨1, 1⟩ ⟨2, 2⟩ { readyState with loading := true } =
      { readyState with loading := true } :=
  input_rejection { readyState with loading := true } (Or.inl rfl) 0 ⟨1, 1⟩ ⟨2, 2⟩

theorem applyZoom_mem (op : ZoomOp) (z : ℚ) (h1 : 0.2 ≤ z) (h2 : z ≤ 5) :
    0.2 ≤ applyZoom op z ∧ applyZoom op z ≤ 5 := by
  cases op with
  | zoomOut =>
      refine ⟨le_max_right _ _, max_le ?_ (by norm_num)⟩
      rw [div_le_iff₀ (by norm_num : (0 : ℚ) < 1.2)]
      linarith
  | zoomIn =>
      refine ⟨le_min ?_ (by norm_num), min_le_right _ _⟩
      nlinarith
  | reset =>
      exact ⟨by norm_num [applyZoom], by norm_num [applyZoom]⟩

/-- C10: starting from the initial zoom 1, every sequence of the session's
zoom controls (zoom-out, zoom-in, reset) keeps the zoom factor within the
closed interval [0.2, 5]. -/
theorem zoom_bounds (ops : List ZoomOp) :
    0.2 ≤ runZoom ops ∧ runZoom ops ≤ 5 := by
  suffices h : ∀ z : ℚ, 0.2 ≤ z → z ≤ 5 →
      0.2 ≤ ops.foldl (fun z op => applyZoom op z) z ∧
      ops.foldl (fun z op => applyZoom op z) z ≤ 5 by
    exact h 1 (by norm_num) (by norm_num)
  induction ops with
  | nil => exact fun z h1 h2 => ⟨h1, h2⟩
  | cons op rest ih =>
      intro z h1 h2
      simp only [List.foldl_cons]
      exact ih (applyZoom op z) (applyZoom_mem op z h1 h2).1
        (applyZoom_mem op z h1 h2).2

/-- C3: undo moves the last committed stroke to the front of the redo stack,
redo moves it back onto the end of the committed sequence, and on any state
with a non-empty committed sequence the round trip `undo(); redo()` restores
the whole state — in particular the rebuilt mask — exactly. -/
theorem undo_redo_inverse (s : EditorState) (h : s.strokes ≠ []) :
    (handleUndo s).strokes = s.strokes.dropLast ∧
    (handleUndo s).redoStack = s.strokes.getLast h :: s.redoStack ∧
    handleRedo (handleUndo s) = s ∧
    ∀ baseline : AlphaBuffer,
      buildMask baseline (handleRedo (handleUndo s)).strokes =
        buildMask baseline s.strokes := by
  have hu : handleUndo s =
      { s with strokes := s.strokes.dropLast,
               redoStack := s.strokes.getLast h :: s.redoStack } := by
    rw [handleUndo, dif_neg h]
  have hrt : handleRedo (handleUndo s) = s := by
    rw [hu]
    show ({ s with
            strokes := s.strokes.dropLast ++ [s.strokes.getLast h],
            redoStack := s.redoStack } : EditorState) = s
    rw [List.dropLast_append_getLast h]
  exact ⟨by rw [hu], by rw [hu], hrt, fun baseline => by rw [hrt]⟩

/-- Witness for C3 at a concrete one-stroke history. -/
theorem undo_redo_inverse_witness :
    handleRedo (handleUndo { readyState with
        strokes := [⟨[⟨1, 1⟩], BrushMode.erase, 40⟩] }) =
      { readyState with strokes := [⟨[⟨1, 1⟩], BrushMode.erase, 40⟩] } :=
  (undo_redo_inverse _ (by simp)).2.2.1

/-- Counterexample for C4 as stated: Scenario D (commit S1, undo, commit S4)
leaves the committed sequence [S4], not [S1, S4] — the undone stroke S1 is
not part of the replayed history. -/
theorem redo_invalidation_cex :
    (stopDrawing (startDrawing 0 ⟨2, 2⟩ (handleUndo (stopDrawing
        (startDrawing 0 ⟨1, 1⟩ readyState))))).strokes ≠
      [⟨[⟨1, 1⟩], readyState.brushMode, readyState.brushSize⟩,
       ⟨[⟨2, 2⟩], readyState.brushMode, readyState.brushSize⟩] := by
  decide

/-- C4 (amended): every commit of a new stroke clears the redo stack, so
after any sequence of undos followed by a commit `canRedo` is false, and the
committed sequence is the post-undo prefix extended by the new stroke; in
Scenario D (commit S1; undo; commit S4) the committed sequence is [S4] with
nothing redoable. -/
theorem redo_invalidation (s : EditorState) (hd : s.isDrawing = true)
    (hc : s.currentStroke ≠ []) :
    (stopDrawing s).redoStack = [] ∧
    canRedo (stopDrawing s) = false ∧
    (stopDrawing s).strokes =
      s.strokes ++ [⟨s.currentStroke, s.brushMode, s.brushSize⟩] ∧
    (stopDrawing (startDrawing 0 ⟨2, 2⟩ (handleUndo (stopDrawing
        (startDrawing 0 ⟨1, 1⟩ readyState))))).strokes =
      [⟨[⟨2, 2⟩], readyState.brushMode, readyState.brushSize⟩] ∧
    canRedo (stopDrawing (startDrawing 0 ⟨2, 2⟩ (handleUndo (stopDrawing
        (startDrawing 0 ⟨1, 1⟩ readyState))))) = false := by
  have hlen : s.currentStroke.length > 0 := List.length_pos.mpr hc
  have hs : stopDrawing s =
      { s with isDrawing := false,
               strokes := s.strokes ++
                 [⟨s.currentStroke, s.brushMode, s.brushSize⟩],
               redoStack := [],
               currentStroke := [] } := by
    rw [stopDrawing, if_pos hd, if_pos hlen]
  refine ⟨by rw [hs], by rw [hs]; rfl, by rw [hs], by decide, by decide⟩

/-- Witness for C4 at a concrete in-progress gesture over a redoable
history. -/
theorem redo_invalidation_witness :
    (stopDrawing { readyState with
        isDrawing := true, currentStroke := [⟨3, 3⟩],
        redoStack := [⟨[⟨1, 1⟩], BrushMode.erase, 40⟩] }).redoStack = [] ∧
    canRedo (stopDrawing { readyState with
        isDrawing := true, currentStroke := [⟨3, 3⟩],
        redoStack := [⟨[⟨1, 1⟩], BrushMode.erase, 40⟩] }) = false ∧
    (stopDrawing { readyState with
        isDrawing := true, currentStroke := [⟨3, 3⟩],
        redoStack := [⟨[⟨1, 1⟩], BrushMode.erase, 40⟩] }).strokes =
      [] ++ [⟨[⟨3, 3⟩], BrushMode.restore, 40⟩] ∧
    (stopDrawing (startDrawing 0 ⟨2, 2⟩ (handleUndo (stopDrawing
        (startDrawing 0 ⟨1, 1⟩ readyState))))).strokes =
      [⟨[⟨2, 2⟩], readyState.brushMode, readyState.brushSize⟩] ∧
    canRedo (stopDrawing (startDrawing 0 ⟨2, 2⟩ (handleUndo (stopDrawing
        (startDrawing 0 ⟨1, 1⟩ readyState))))) = false :=
  redo_invalidation { readyState with
    isDrawing := true, currentStroke := [⟨3, 3⟩],
    redoStack := [⟨[⟨1, 1⟩], BrushMode.erase, 40⟩] } rfl (by simp)

/-- Counterexample for C8 as stated: a begin event arriving while a gesture
is already in progress does not leave the accumulated point buffer
unchanged. -/
theorem reentrant_begin_cex :
    (startDrawing 0 ⟨2, 2⟩ { readyState with
        isDrawing := true, currentStroke := [⟨1, 1⟩] }).currentStroke ≠
      ({ readyState with
        isDrawing := true, currentStroke := [⟨1, 1⟩] } : EditorState).currentStroke := by
  decide

/-- C8 (amended): a primary-button begin event on a session that is neither
loading nor in error always restarts the gesture — even while a gesture is
already in progress, the point buffer is reset to the new single point (the
handlers have no re-entrancy guard). -/
theorem reentrant_begin (s : EditorState) (p : Point) (hl : s.loading = false)
    (he : s.error = none) :
    startDrawing 0 p s = { s with
      isDrawing := true, currentStroke := [p] } ∧
    handleTouchStart p s = { s with
      isDrawing := true, currentStroke := [p],
      isBrushPreviewVisible := true } := by
  constructor
  · rw [startDrawing, if_neg]
    simp [hl, he]
  · rw [handleTouchStart, if_neg]
    simp [hl, he]

/-- Witness for C8 at a concrete in-progress gesture. -/
theorem reentrant_begin_witness :
    startDrawing 0 ⟨5, 5⟩ { readyState with
        isDrawing := true, currentStroke := [⟨4, 4⟩] } =
      { readyState with
        isDrawing := true, currentStroke := [⟨5, 5⟩] } :=
  (reentrant_begin { readyState with
    isDrawing := true, currentStroke := [⟨4, 4⟩] } ⟨5, 5⟩ rfl rfl).1

/-- Counterexample for C7 as stated: after a failed background-image load the
session error state is set (the same state that defines the Error state), and
a subsequent primary pointer-down is rejected — drawing is no longer
accepted. -/
theorem bg_failure_cex :
    (bgUploadFailure readyState).error ≠ none ∧
    startDrawing 0 ⟨1, 1⟩ (bgUploadFailure readyState) =
      bgUploadFailure readyState ∧
    (startDrawing 0 ⟨1, 1⟩ (bgUploadFailure readyState)).isDrawing = false := by
  refine ⟨?_, ?_, ?_⟩ <;> decide

/-- C7 (amended): a failed background-image load leaves the background
configuration and the stroke history untouched and undo/redo still operate
unchanged, but it records the failure in the session error state, so all
subsequent drawing input is rejected. -/
theorem bg_failure_state (s : EditorState) :
    (bgUploadFailure s).backgroundColor = s.backgroundColor ∧
    (bgUploadFailure s).backgroundImage = s.backgroundImage ∧
    (bgUploadFailure s).strokes = s.strokes ∧
    (bgUploadFailure s).redoStack = s.redoStack ∧
    (bgUploadFailure s).error = some "Failed to load background image" ∧
    (∀ (button : Nat) (p : Point),
        startDrawing button p (bgUploadFailure s) = bgUploadFailure s) ∧
    (∀ p : Point, handleTouchStart p (bgUploadFailure s) = bgUploadFailure s) ∧
    handleUndo (bgUploadFailure s) = bgUploadFailure (handleUndo s) ∧
    handleRedo (bgUploadFailure s) = bgUploadFailure (handleRedo s) := by
  refine ⟨rfl, rfl, rfl, rfl, rfl, ?_, ?_, ?_, ?_⟩
  · intro button p
    rw [startDrawing, if_pos (Or.inr (Or.inr (by simp [bgUploadFailure])))]
  · intro p
    rw [handleTouchStart, if_pos (Or.inr (by simp [bgUploadFailure]))]
  · by_cases h : s.strokes = [] <;>
      simp [handleUndo, bgUploadFailure, h]
  · cases hr : s.redoStack <;>
      simp [handleRedo, bgUploadFailure, hr]

/-- C2 (Scenario A): erasing once with brush size 40 at a single point `c` on
a fully opaque baseline gives alpha 0 at `c` itself, leaves every point at
distance at least 20 from `c` at alpha 255, and at distance 10 yields the
linear-falloff value composited destination-out, `255 * (1 - 1/2)`. -/
theorem erase_stamp_scenarioA (c : Point) :
    buildMask (fun _ => 255) [⟨[c], BrushMode.erase, 40⟩] c = 0 ∧
    (∀ p : Point, 20 ≤ euclDist c p →
      buildMask (fun _ => 255) [⟨[c], BrushMode.erase, 40⟩] p = 255) ∧
    (∀ p : Point, euclDist c p = 10 →
      buildMask (fun _ => 255) [⟨[c], BrushMode.erase, 40⟩] p = 255 / 2) := by
  refine ⟨?_, ?_, ?_⟩
  · rw [buildMask_single_point]
    simp [applyPoint, stampAlpha_self]
  · intro p hp
    rw [buildMask_single_point]
    have ha : stampAlpha c (40 / 2) p = 0 := by
      refine stampAlpha_far c p (40 / 2) (by norm_num) ?_
      push_cast
      linarith
    simp [applyPoint, ha]
  · intro p hp
    rw [buildMask_single_point]
    have ha : stampAlpha c (40 / 2) p = 1 - 10 / ((40 / 2 : ℚ) : ℝ) := by
      refine stampAlpha_at c p (40 / 2) (by norm_num) 10 hp (by norm_num) ?_
      push_cast
      norm_num
    simp only [applyPoint, ha]
    push_cast
    norm_num

/-- Witness for C2 at the concrete centre (0,0) and the point (10,0) at
distance 10. -/
theorem erase_stamp_scenarioA_witness :
    buildMask (fun _ => 255) [⟨[⟨0, 0⟩], BrushMode.erase, 40⟩] ⟨10, 0⟩ =
      255 / 2 :=
  (erase_stamp_scenarioA ⟨0, 0⟩).2.2 ⟨10, 0⟩ euclDist_ten

/-- C5: strokes are applied strictly in commit order (the result of the
prefix feeds the next stroke), and the order of an erase and a restore stroke
matters: over a fully opaque baseline, two overlapping single-point strokes
at (0,0) with size 40 give different alpha at (10,0) — where both stamps have
partial alpha 1/2 — depending on which comes first. -/
theorem order_sensitivity :
    (∀ (b : AlphaBuffer) (strokes : List Stroke) (st : Stroke),
        buildMask b (strokes ++ [st]) = applyStroke (buildMask b strokes) st) ∧
    buildMask (fun _ => 255)
        [⟨[⟨0, 0⟩], BrushMode.erase, 40⟩, ⟨[⟨0, 0⟩], BrushMode.restore, 40⟩]
        ⟨10, 0⟩ ≠
      buildMask (fun _ => 255)
        [⟨[⟨0, 0⟩], BrushMode.restore, 40⟩, ⟨[⟨0, 0⟩], BrushMode.erase, 40⟩]
        ⟨10, 0⟩ := by
  constructor
  · intro b strokes st
    unfold buildMask
    rw [List.foldl_append]
    rfl
  · have ha : stampAlpha ⟨0, 0⟩ (40 / 2) ⟨10, 0⟩ = 1 - 10 / ((40 / 2 : ℚ) : ℝ) := by
      refine stampAlpha_at ⟨0, 0⟩ ⟨10, 0⟩ (40 / 2) (by norm_num) 10
        euclDist_ten (by norm_num) ?_
      push_cast
      norm_num
    show applyPoint BrushMode.restore (40 / 2) ⟨0, 0⟩
        (applyPoint BrushMode.erase (40 / 2) ⟨0, 0⟩ (fun _ => 255)) ⟨10, 0⟩ ≠
      applyPoint BrushMode.erase (40 / 2) ⟨0, 0⟩
        (applyPoint BrushMode.restore (40 / 2) ⟨0, 0⟩ (fun _ => 255)) ⟨10, 0⟩
    simp only [applyPoint, ha]
    push_cast
    norm_num

end MagicBrush
